import Mathlib

/-!
# Verification of the CLIChatRoom session and message-routing engine

A shallow embedding, in Lean 4, of the core of the `clichatroom` C++
repository: the wire codec (`network.cpp`), the user registry, command
processor and message router (`services.cpp` / `common.h`), the server-side
client handler (`server.cpp`) and the client input loop (`client.cpp`).

Modelling conventions:
* C++ `std::string` values are byte sequences, modelled as `List Nat`
  (each byte being `0 ≤ b < 256` on a real wire); `strBytes` converts an
  ASCII Lean string literal to its byte list for readability.
* `Socket` (a C++ `int` file descriptor) is modelled as `Int`; the registry
  code uses `-1` as the "not found" sentinel, exactly as the source does.
* `MessageType` is a C++ `enum class` whose underlying type is `int`; the
  decoder `static_cast`s an arbitrary `int32` into it without a range check,
  so the embedding keeps the underlying integer and names the eight
  enumerators as constants `0..7` in declaration order.
* C++ exceptions (`throw std::runtime_error` in `Deserialize`) are modelled
  as `Option.none`; `ReceiveMessage` catches every exception and returns
  `std::nullopt`, which is `none` here as well.
* Wall-clock time (`NowEpochMs()`) is passed in as an explicit `now : Int`
  parameter.
* Side effects (socket sends, broadcasts, registry updates, closes) are
  returned as explicit lists of events / send pairs; logging and terminal
  output are external collaborators and are not modelled.
-/

/-- Byte list of an ASCII string literal (a C++ `std::string` is a byte
sequence; `List Nat` is the byte-sequence model used throughout). -/
def strBytes (s : String) : List Nat := s.data.map Char.toNat

/-- C++ `using Socket = int;` (common.h). File descriptors; `-1` is the
"no socket" sentinel used by `UserManager::GetSocket`. -/
abbrev Socket := Int

/- The underlying integer values of the C++ `enum class MessageType`
(common.h), in declaration order.  The enum's underlying type is `int`,
and `network.cpp` casts raw `int32` values into it unchecked, so the
embedding keeps the integer representation. -/
namespace MessageType

def PUBLIC_MESSAGE : Int := 0
def PRIVATE_MESSAGE : Int := 1
def SYSTEM_ANNOUNCEMENT : Int := 2
def USER_JOINED : Int := 3
def USER_LEFT : Int := 4
def USER_LIST_REQUEST : Int := 5
def USER_LIST_RESPONSE : Int := 6
def COMMAND_RESPONSE : Int := 7

end MessageType

/-- `struct Message` (common.h): type tag, epoch-ms timestamp, sender,
target (private messages only) and content, strings as byte lists. -/
structure Message where
  type : Int
  timestamp : Int
  sender_username : List Nat
  target_username : List Nat
  content : List Nat
deriving DecidableEq, Repr

/-- `struct User` (common.h). -/
structure User where
  id : Int
  username : List Nat
  connected : Bool
  joined_at : Int
deriving DecidableEq, Repr

namespace NetworkLayer

/-- Big-endian byte encoding of `u` on exactly `n` bytes (the manual
shift-and-mask loops of `network.cpp`'s `write_int32`/`write_int64`). -/
def toBytesBE : Nat → Nat → List Nat
  | 0, _ => []
  | n + 1, u => toBytesBE n (u / 256) ++ [u % 256]

/-- Big-endian byte decoding (`ntohl` / the `uv = (uv << 8) | byte` loop of
`read_int64`; bytes on a real wire are `< 256`). -/
def fromBytesBE (bs : List Nat) : Nat := bs.foldl (fun acc b => acc * 256 + b) 0

/-- `write_int32` of `NetworkLayer::Serialize`: the `int32` value in
two's complement (`htonl` of the bit pattern), 4 bytes big-endian. -/
def write_int32 (v : Int) : List Nat := toBytesBE 4 ((v % (2 ^ 32 : Int)).toNat)

/-- `write_int64` of `NetworkLayer::Serialize`: cast to `uint64` (i.e. the
value mod `2^64`), 8 bytes big-endian. -/
def write_int64 (v : Int) : List Nat := toBytesBE 8 ((v % (2 ^ 64 : Int)).toNat)

/-- `write_string` of `NetworkLayer::Serialize`: `int32` length prefix
(`static_cast<int32_t>(s.size())`) followed by the raw bytes. -/
def write_string (s : List Nat) : List Nat :=
  write_int32 (s.length : Int) ++ s

/-- `NetworkLayer::Serialize` (network.cpp): type, timestamp, then the
three length-prefixed strings. -/
def Serialize (msg : Message) : List Nat :=
  write_int32 msg.type ++ write_int64 msg.timestamp ++
    write_string msg.sender_username ++ write_string msg.target_username ++
    write_string msg.content

/-- Reinterpret 4 big-endian bytes as a signed `int32` (what
`read_int32`'s `memcpy` + `ntohl` into an `int32_t` produces). -/
def int32OfBytes (bs : List Nat) : Int :=
  let u := fromBytesBE bs
  if u < 2 ^ 31 then (u : Int) else (u : Int) - 2 ^ 32

/-- Reinterpret 8 big-endian bytes as a signed `int64` (what `read_int64`'s
`uint64` accumulation cast to `long long` produces). -/
def int64OfBytes (bs : List Nat) : Int :=
  let u := fromBytesBE bs
  if u < 2 ^ 63 then (u : Int) else (u : Int) - 2 ^ 64

/-- Consume exactly `n` bytes from the front of `data`; `none` when fewer
than `n` remain (the `pos + n > data.size()` bounds checks of
`Deserialize`, whose `throw` is modelled as `none`). -/
def readBytes (n : Nat) (data : List Nat) : Option (List Nat × List Nat) :=
  if n ≤ data.length then some (data.take n, data.drop n) else none

/-- `read_int32` of `NetworkLayer::Deserialize`: 4 bytes or fail. -/
def read_int32 (data : List Nat) : Option (Int × List Nat) :=
  match readBytes 4 data with
  | none => none
  | some (bs, rest) => some (int32OfBytes bs, rest)

/-- `read_int64` of `NetworkLayer::Deserialize`: 8 bytes or fail. -/
def read_int64 (data : List Nat) : Option (Int × List Nat) :=
  match readBytes 8 data with
  | none => none
  | some (bs, rest) => some (int64OfBytes bs, rest)

/-- `read_string` of `NetworkLayer::Deserialize`: reads an `int32` length,
fails if it is negative or if fewer bytes than declared remain, otherwise
consumes exactly that many bytes. -/
def read_string (data : List Nat) : Option (List Nat × List Nat) :=
  match read_int32 data with
  | none => none
  | some (len, rest) =>
    if len < 0 then none
    else readBytes len.toNat rest

/-- `NetworkLayer::Deserialize` (network.cpp).  Reads type, timestamp and
the three strings; any bounds failure (`throw` in the source) is `none`.
Note that the decoded `type_i32` is `static_cast` into `MessageType`
without any range check, and trailing bytes are ignored — both faithful
to the source. -/
def Deserialize (data : List Nat) : Option Message :=
  match read_int32 data with
  | none => none
  | some (type_i32, r1) =>
    match read_int64 r1 with
    | none => none
    | some (ts, r2) =>
      match read_string r2 with
      | none => none
      | some (s1, r3) =>
        match read_string r3 with
        | none => none
        | some (s2, r4) =>
          match read_string r4 with
          | none => none
          | some (s3, _) =>
            some { type := type_i32, timestamp := ts, sender_username := s1,
                   target_username := s2, content := s3 }

/-- `NetworkLayer::ReceiveMessage` (network.cpp), with the input stream
modelled as the byte sequence the socket will deliver before EOF (a
truncated stream simply runs out of bytes, making `recv_all` fail).
Reads the 4-byte length prefix, rejects non-positive lengths, reads
exactly `total_len` payload bytes, decodes; every failure path — short
prefix, bad length, short payload, decode exception — is `none`. -/
def ReceiveMessage (stream : List Nat) : Option Message :=
  match readBytes 4 stream with
  | none => none
  | some (lenBytes, rest) =>
    let total_len := int32OfBytes lenBytes
    if total_len ≤ 0 then none
    else
      match readBytes total_len.toNat rest with
      | none => none
      | some (buf, _) => Deserialize buf

end NetworkLayer

namespace UserManager

/- `services.cpp` keeps `static std::unordered_map<std::string, Pair> g_users`
(username ↦ (User, Socket)), every operation locking `g_mutex` for its own
duration.  The map is modelled as an association list with at most one entry
per key; each registry operation below is one critical section. -/

/-- The registry: the state of `UserManager::g_users`. -/
abbrev Registry := List (List Nat × (User × Socket))

/-- `UserManager::AddUser`: `g_users[user.username] = (user, socket)` — an
unconditional upsert (overwrites any existing entry for that username,
appends a fresh entry otherwise). -/
def AddUser (reg : Registry) (user : User) (client_socket : Socket) : Registry :=
  if reg.any (fun kv => kv.1 == user.username) then
    reg.map (fun kv =>
      if kv.1 == user.username then (kv.1, (user, client_socket)) else kv)
  else reg ++ [(user.username, (user, client_socket))]

/-- `UserManager::RemoveUser`: `g_users.erase(username)` (no-op if absent). -/
def RemoveUser (reg : Registry) (username : List Nat) : Registry :=
  reg.filter (fun kv => !(kv.1 == username))

/-- `UserManager::CheckUniqueness`: `g_users.find(username) == g_users.end()`. -/
def CheckUniqueness (reg : Registry) (username : List Nat) : Bool :=
  reg.all (fun kv => !(kv.1 == username))

/-- `UserManager::GetSocket`: the socket registered for `username`, or `-1`. -/
def GetSocket (reg : Registry) (username : List Nat) : Socket :=
  match reg.find? (fun kv => kv.1 == username) with
  | none => (-1 : Int)
  | some kv => kv.2.2

/-- `UserManager::GetAllUsernames`: snapshot of the keys, in map order. -/
def GetAllUsernames (reg : Registry) : List (List Nat) := reg.map (·.1)

/-- The socket snapshot that `UserManager::ForEachUserSocket` takes under the
lock and then iterates without it (same iteration order as the map). -/
def SocketSnapshot (reg : Registry) : List Socket := reg.map (·.2.2)

/-- `UserManager::MakeServerCommand` (services.cpp): a COMMAND_RESPONSE from
"Server" with the given content, stamped with the current time. -/
def MakeServerCommand (now : Int) (content : List Nat) : Message :=
  { type := MessageType.COMMAND_RESPONSE, timestamp := now,
    sender_username := strBytes "Server", target_username := [],
    content := content }

/-- The retry loop of `UserManager::Authenticate`, recursing on the number
of remaining permitted failures (`kAuthMaxRetries - retries`, initially 3).
`replies` is the sequence of results of the successive
`NetworkLayer::ReceiveMessage` calls (an exhausted list behaves as a
disconnect, i.e. `none`).  Returns the authenticated user (or `none`), the
updated registry, the messages sent to `client_socket` in order, and the
unconsumed remainder of the reply stream. -/
def AuthenticateGo (reg : Registry) (now : Int) (client_socket : Socket) :
    List (Option Message) → Nat →
    Option User × Registry × List (Socket × Message) × List (Option Message)
  | replies, 0 =>
    (none, reg, [(client_socket, MakeServerCommand now (strBytes "AUTH_FAILED"))], replies)
  | replies, Nat.succ k =>
    let prompt := (client_socket, MakeServerCommand now (strBytes "ENTER_USERNAME"))
    match replies with
    | [] => (none, reg, [prompt], [])
    | none :: rest => (none, reg, [prompt], rest)
    | some reply :: rest =>
      let username := reply.content
      if CheckUniqueness reg username then
        let user : User :=
          { id := client_socket, username := username, connected := true,
            joined_at := now }
        let reg2 := AddUser reg user client_socket
        (some user, reg2,
         [prompt, (client_socket, MakeServerCommand now (strBytes "USERNAME_ACCEPTED"))],
         rest)
      else
        let r := AuthenticateGo reg now client_socket rest k
        (r.1, r.2.1,
         prompt :: (client_socket, MakeServerCommand now (strBytes "USERNAME_TAKEN")) :: r.2.2.1,
         r.2.2.2)

/-- `UserManager::Authenticate` (services.cpp): up to `kAuthMaxRetries = 3`
username attempts.  Sequential model of a single session's handshake: the
registry is read/updated only by this call. -/
def Authenticate (reg : Registry) (now : Int) (client_socket : Socket)
    (replies : List (Option Message)) :
    Option User × Registry × List (Socket × Message) × List (Option Message) :=
  AuthenticateGo reg now client_socket replies 3

end UserManager

namespace MessageRouter

/-- `MessageRouter::CollectAllSockets`: the registry snapshot gathered via
`UserManager::ForEachUserSocket`. -/
def CollectAllSockets (reg : UserManager.Registry) : List Socket :=
  UserManager.SocketSnapshot reg

/-- `MessageRouter::BroadcastPublic` (services.cpp): send `msg` to every
socket in the snapshot, in order.  The return value is the list of sends
attempted; a failed `NetworkLayer::SendMessage` is ignored by the source
(best-effort delivery), so each pair is one attempted delivery. -/
def BroadcastPublic (reg : UserManager.Registry) (msg : Message) :
    List (Socket × Message) :=
  (CollectAllSockets reg).map (fun s => (s, msg))

/-- `MessageRouter::SendPrivate` (services.cpp): deliver to the target's
socket if registered; otherwise synthesize a `USER_NOT_FOUND:<target>`
COMMAND_RESPONSE and send it to the sender's freshly-looked-up socket,
dropping it if the sender has also disappeared. -/
def SendPrivate (reg : UserManager.Registry) (now : Int) (msg : Message) :
    List (Socket × Message) :=
  let target_socket := UserManager.GetSocket reg msg.target_username
  if target_socket ≠ (-1 : Int) then [(target_socket, msg)]
  else
    let notify : Message :=
      { type := MessageType.COMMAND_RESPONSE, timestamp := now,
        sender_username := strBytes "Server", target_username := [],
        content := strBytes "USER_NOT_FOUND:" ++ msg.target_username }
    let sender_socket := UserManager.GetSocket reg msg.sender_username
    if sender_socket ≠ (-1 : Int) then [(sender_socket, notify)] else []

end MessageRouter

namespace CommandProcessor

/-- The anonymous-namespace `Join` helper of services.cpp: concatenate
`parts` with `sep` between consecutive elements. -/
def Join (parts : List (List Nat)) (sep : List Nat) : List Nat :=
  match parts with
  | [] => []
  | p :: ps => p ++ ps.foldl (fun acc q => acc ++ sep ++ q) []

/-- `CommandProcessor::Process` (services.cpp).  Classifies the inbound
message and returns the C++ verdict string ("CONTINUE" / "DISCONNECT")
together with the list of (socket, message) sends it performs — directly
for list responses and command replies, via the router for private and
public messages.  Log writes are external and not modelled. -/
def Process (reg : UserManager.Registry) (now : Int) (msg : Message)
    (client_socket : Socket) : String × List (Socket × Message) :=
  if msg.type = MessageType.USER_LIST_REQUEST then
    let names := UserManager.GetAllUsernames reg
    let resp : Message :=
      { type := MessageType.USER_LIST_RESPONSE, timestamp := now,
        sender_username := strBytes "Server", target_username := [],
        content := Join names (strBytes ",") }
    ("CONTINUE", [(client_socket, resp)])
  else if msg.type = MessageType.PRIVATE_MESSAGE then
    ("CONTINUE", MessageRouter.SendPrivate reg now msg)
  else if msg.type = MessageType.PUBLIC_MESSAGE then
    ("CONTINUE", MessageRouter.BroadcastPublic reg msg)
  else if msg.type = MessageType.COMMAND_RESPONSE ∧ msg.content = strBytes "BYE" then
    ("DISCONNECT", [(client_socket, UserManager.MakeServerCommand now (strBytes "GOODBYE"))])
  else
    ("CONTINUE", [(client_socket, UserManager.MakeServerCommand now (strBytes "UNKNOWN_COMMAND"))])

end CommandProcessor

namespace ClientHandler

/-- The observable actions of `ClientHandler::ServeClient` (server.cpp), at
the granularity of the service calls it makes: a unicast send, a call to
`MessageRouter::BroadcastPublic`, a `UserManager::RemoveUser`, and a
`NetworkLayer::Close` of the client socket. -/
inductive Event where
  | send (s : Socket) (m : Message)
  | broadcastPub (m : Message)
  | removeUser (username : List Nat)
  | close (s : Socket)
deriving DecidableEq, Repr

/-- The enrichment `ServeClient` applies to each message received in its
active loop (server.cpp lines 59–65), before handing it to
`CommandProcessor::Process`: unconditionally overwrite the sender with the
session's username, and stamp the current time exactly when the client left
the timestamp at the `0` sentinel. -/
def StampIncoming (username : List Nat) (now : Int) (m : Message) : Message :=
  { m with
    sender_username := username,
    timestamp := if m.timestamp = 0 then now else m.timestamp }

/-- The `while (user.connected)` receive loop of `ServeClient` (the loop
exits only via `break`: `user.connected` is never written).  Recurses over
the remaining reply stream; list exhaustion or an explicit `none` is a
transport-level disconnect.  Returns the events of the loop body. -/
def ActiveLoop (reg : UserManager.Registry) (now : Int) (user : User)
    (client_socket : Socket) : List (Option Message) → List Event
  | [] => []
  | none :: _ => []
  | some incoming :: rest =>
    let stamped := StampIncoming user.username now incoming
    let r := CommandProcessor.Process reg now stamped client_socket
    let evs := r.2.map (fun p => Event.send p.1 p.2)
    if r.1 = "DISCONNECT" then evs
    else evs ++ ActiveLoop reg now user client_socket rest

/-- `ClientHandler::ServeClient` (server.cpp): authenticate; on failure
close the socket and stop; on success broadcast the join announcement, run
the active loop, then remove the user, broadcast the leave announcement and
close.  Returns the final registry and the event trace.  Sequential model
of a single session (`now` stands for every `NowEpochMs()` reading, and the
registry is not mutated by other sessions meanwhile). -/
def ServeClient (reg : UserManager.Registry) (now : Int)
    (client_socket : Socket) (recvs : List (Option Message)) :
    UserManager.Registry × List Event :=
  match UserManager.Authenticate reg now client_socket recvs with
  | (none, reg1, authSends, _) =>
    (reg1, authSends.map (fun p => Event.send p.1 p.2) ++ [Event.close client_socket])
  | (some user, reg1, authSends, rest) =>
    let joinMsg : Message :=
      { type := MessageType.USER_JOINED, timestamp := now,
        sender_username := user.username, target_username := [],
        content := user.username ++ strBytes " joined" }
    let loopEvents := ActiveLoop reg1 now user client_socket rest
    let leaveMsg : Message :=
      { type := MessageType.USER_LEFT, timestamp := now,
        sender_username := user.username, target_username := [],
        content := user.username ++ strBytes " left" }
    (UserManager.RemoveUser reg1 user.username,
     authSends.map (fun p => Event.send p.1 p.2) ++
       [Event.broadcastPub joinMsg] ++ loopEvents ++
       [Event.removeUser user.username, Event.broadcastPub leaveMsg,
        Event.close client_socket])

end ClientHandler

namespace AuthRace

/- Interleaving model for the check-then-insert sequence inside
`UserManager::Authenticate`.  The registry mutex (`g_mutex`) is taken and
released separately inside `CheckUniqueness` and inside `AddUser`, so for
two sessions authenticating concurrently the atomic units are exactly those
two registry operations; this model interleaves them.  Each thread performs
the success path of one attempt of `Authenticate`:
`unique := CheckUniqueness(username)`, then, if `unique`, `AddUser` followed
by sending USERNAME_ACCEPTED (an accepted thread is one that reached the
`return user` of the success branch). -/

/-- Program counter of one in-flight authentication attempt: before its
`CheckUniqueness` call, between the check and its acting on the recorded
result, or finished (with whether it was accepted). -/
inductive Phase where
  | toCheck
  | toAct (unique : Bool)
  | finished (accepted : Bool)
deriving DecidableEq, Repr

/-- One session thread inside `Authenticate`: its candidate username, its
client socket and its progress through the attempt. -/
structure Thread where
  uname : List Nat
  sock : Socket
  phase : Phase
deriving DecidableEq, Repr

/-- Whether the thread's attempt succeeded (it registered its user and sent
USERNAME_ACCEPTED). -/
def Thread.accepted (t : Thread) : Bool :=
  match t.phase with
  | .finished b => b
  | _ => false

/-- One atomic step of a thread: its `CheckUniqueness` critical section, or
— when the recorded check said unique — its `AddUser` critical section
(building the `User` exactly as `Authenticate` does). -/
def authStep (reg : UserManager.Registry) (now : Int) (t : Thread) :
    UserManager.Registry × Thread :=
  match t.phase with
  | .toCheck =>
    (reg, { t with phase := .toAct (UserManager.CheckUniqueness reg t.uname) })
  | .toAct true =>
    let user : User :=
      { id := t.sock, username := t.uname, connected := true, joined_at := now }
    (UserManager.AddUser reg user t.sock, { t with phase := .finished true })
  | .toAct false => (reg, { t with phase := .finished false })
  | .finished _ => (reg, t)

/-- Shared state of two concurrent `Authenticate` attempts. -/
structure RaceState where
  reg : UserManager.Registry
  t1 : Thread
  t2 : Thread
deriving DecidableEq, Repr

/-- Scheduler step: `false` lets thread 1 take its next atomic registry
operation, `true` lets thread 2. -/
def raceStep (now : Int) (st : RaceState) (who : Bool) : RaceState :=
  if who then
    let r := authStep st.reg now st.t2
    { st with reg := r.1, t2 := r.2 }
  else
    let r := authStep st.reg now st.t1
    { st with reg := r.1, t1 := r.2 }

/-- Run the two threads under a given interleaving schedule. -/
def runRace (now : Int) (st : RaceState) (sched : List Bool) : RaceState :=
  sched.foldl (raceStep now) st

end AuthRace

namespace ClientCLI

/-- One iteration of `ClientCLI::InputLoop` (client.cpp) on the line read
from the console: the list of messages sent to the server for that line,
and whether the loop continues (`false` exactly on `/bye`, which also
closes the socket and breaks).  The message skeleton carries
`timestamp = now` and an empty sender, as in the source. -/
def ProcessInputLine (now : Int) (line : List Nat) : List Message × Bool :=
  if line = [] then ([], true)
  else if line = strBytes "/bye" then
    ([{ type := MessageType.COMMAND_RESPONSE, timestamp := now,
        sender_username := [], target_username := [],
        content := strBytes "BYE" }], false)
  else if line = strBytes "/list" then
    ([{ type := MessageType.USER_LIST_REQUEST, timestamp := now,
        sender_username := [], target_username := [],
        content := [] }], true)
  else if line.head? = some (Char.toNat '@') then
    match line.findIdx? (fun b => b == Char.toNat ' ') with
    | none => ([], true)
    | some spacePos =>
      let target := (line.drop 1).take (spacePos - 1)
      let content := line.drop (spacePos + 1)
      ([{ type := MessageType.PRIVATE_MESSAGE, timestamp := now,
          sender_username := [], target_username := target,
          content := content }], true)
  else
    ([{ type := MessageType.PUBLIC_MESSAGE, timestamp := now,
        sender_username := [], target_username := [],
        content := line }], true)

end ClientCLI

/-! ## Codec lemmas -/

namespace NetworkLayer

theorem length_toBytesBE (n : Nat) : ∀ u : Nat, (toBytesBE n u).length = n := by
  induction n with
  | zero => intro u; rfl
  | succ k ih =>
    intro u
    simp [toBytesBE, ih]

theorem fromBytesBE_append_one (l : List Nat) (b : Nat) :
    fromBytesBE (l ++ [b]) = fromBytesBE l * 256 + b := by
  simp [fromBytesBE]

theorem fromBytesBE_toBytesBE (n : Nat) :
    ∀ u : Nat, u < 256 ^ n → fromBytesBE (toBytesBE n u) = u := by
  induction n with
  | zero =>
    intro u hu
    have : u = 0 := by simpa using hu
    simp [this, toBytesBE, fromBytesBE]
  | succ k ih =>
    intro u hu
    have hdiv : u / 256 < 256 ^ k := by
      rw [Nat.div_lt_iff_lt_mul (by norm_num : 0 < 256)]
      calc u < 256 ^ (k + 1) := hu
        _ = 256 ^ k * 256 := by ring
    calc fromBytesBE (toBytesBE (k + 1) u)
        = fromBytesBE (toBytesBE k (u / 256) ++ [u % 256]) := rfl
      _ = fromBytesBE (toBytesBE k (u / 256)) * 256 + u % 256 :=
          fromBytesBE_append_one _ _
      _ = u / 256 * 256 + u % 256 := by rw [ih _ hdiv]
      _ = u := by omega

theorem readBytes_exact (l r : List Nat) : readBytes l.length (l ++ r) = some (l, r) := by
  have hle : l.length ≤ (l ++ r).length := by simp
  simp [readBytes, hle, List.take_left, List.drop_left]

theorem read_write_int32 (v : Int) (r : List Nat)
    (h1 : -(2 ^ 31) ≤ v) (h2 : v < 2 ^ 31) :
    read_int32 (write_int32 v ++ r) = some (v, r) := by
  have hlen : (toBytesBE 4 ((v % (2 ^ 32 : Int)).toNat)).length = 4 :=
    length_toBytesBE 4 _
  have hread : readBytes 4 (write_int32 v ++ r) =
      some (toBytesBE 4 ((v % (2 ^ 32 : Int)).toNat), r) := by
    have := readBytes_exact (toBytesBE 4 ((v % (2 ^ 32 : Int)).toNat)) r
    rwa [hlen] at this
  have hmodlt : v % (2 ^ 32 : Int) < 2 ^ 32 :=
    Int.emod_lt_of_pos v (by norm_num)
  have hmodnn : 0 ≤ v % (2 ^ 32 : Int) := Int.emod_nonneg v (by norm_num)
  have hult : (v % (2 ^ 32 : Int)).toNat < 256 ^ 4 := by omega
  have hfrom : fromBytesBE (toBytesBE 4 ((v % (2 ^ 32 : Int)).toNat)) =
      (v % (2 ^ 32 : Int)).toNat := fromBytesBE_toBytesBE 4 _ hult
  simp only [read_int32, hread, int32OfBytes, hfrom]
  have hcast : ((v % (2 ^ 32 : Int)).toNat : Int) = v % (2 ^ 32 : Int) :=
    Int.toNat_of_nonneg hmodnn
  split
  · rename_i hlt
    have : ((v % (2 ^ 32 : Int)).toNat : Int) < 2 ^ 31 := by exact_mod_cast hlt
    simp only [Option.some.injEq, Prod.mk.injEq, and_true]
    omega
  · rename_i hge
    have : ¬ ((v % (2 ^ 32 : Int)).toNat : Int) < 2 ^ 31 := by exact_mod_cast hge
    simp only [Option.some.injEq, Prod.mk.injEq, and_true]
    omega

theorem read_write_int64 (v : Int) (r : List Nat)
    (h1 : -(2 ^ 63) ≤ v) (h2 : v < 2 ^ 63) :
    read_int64 (write_int64 v ++ r) = some (v, r) := by
  have hlen : (toBytesBE 8 ((v % (2 ^ 64 : Int)).toNat)).length = 8 :=
    length_toBytesBE 8 _
  have hread : readBytes 8 (write_int64 v ++ r) =
      some (toBytesBE 8 ((v % (2 ^ 64 : Int)).toNat), r) := by
    have := readBytes_exact (toBytesBE 8 ((v % (2 ^ 64 : Int)).toNat)) r
    rwa [hlen] at this
  have hmodlt : v % (2 ^ 64 : Int) < 2 ^ 64 :=
    Int.emod_lt_of_pos v (by norm_num)
  have hmodnn : 0 ≤ v % (2 ^ 64 : Int) := Int.emod_nonneg v (by norm_num)
  have hult : (v % (2 ^ 64 : Int)).toNat < 256 ^ 8 := by omega
  have hfrom : fromBytesBE (toBytesBE 8 ((v % (2 ^ 64 : Int)).toNat)) =
      (v % (2 ^ 64 : Int)).toNat := fromBytesBE_toBytesBE 8 _ hult
  simp only [read_int64, hread, int64OfBytes, hfrom]
  split
  · rename_i hlt
    have : ((v % (2 ^ 64 : Int)).toNat : Int) < 2 ^ 63 := by exact_mod_cast hlt
    simp only [Option.some.injEq, Prod.mk.injEq, and_true]
    omega
  · rename_i hge
    have : ¬ ((v % (2 ^ 64 : Int)).toNat : Int) < 2 ^ 63 := by exact_mod_cast hge
    simp only [Option.some.injEq, Prod.mk.injEq, and_true]
    omega

theorem read_write_string (s r : List Nat) (h : s.length < 2 ^ 31) :
    read_string (write_string s ++ r) = some (s, r) := by
  have h32 : read_int32 (write_int32 (s.length : Int) ++ (s ++ r)) =
      some ((s.length : Int), s ++ r) :=
    read_write_int32 _ _ (by omega) (by omega)
  have hassoc : write_string s ++ r = write_int32 (s.length : Int) ++ (s ++ r) := by
    simp [write_string, List.append_assoc]
  have hneg : ¬ ((s.length : Int) < 0) := by omega
  have htn : ((s.length : Int)).toNat = s.length := Int.toNat_natCast s.length
  rw [hassoc]
  simp only [read_string, h32, hneg, if_false, htn, readBytes_exact]

end NetworkLayer

/-! ## Claim C2: codec round-trip -/

/-- C2: for every valid `Message` (type among the eight enum values,
timestamp in `int64` range, string lengths non-negative — inherent to the
model — and fitting in `int32`), decoding an encoded message restores the
type, timestamp, sender, target and content fields exactly:
`Deserialize (Serialize m) = some m`. -/
theorem C2_codec_roundtrip (m : Message)
    (htype0 : 0 ≤ m.type) (htype7 : m.type ≤ 7)
    (hts1 : -(2 ^ 63) ≤ m.timestamp) (hts2 : m.timestamp < 2 ^ 63)
    (hs : m.sender_username.length < 2 ^ 31)
    (ht : m.target_username.length < 2 ^ 31)
    (hc : m.content.length < 2 ^ 31) :
    NetworkLayer.Deserialize (NetworkLayer.Serialize m) = some m := by
  obtain ⟨t, ts, s1, s2, s3⟩ := m
  dsimp only at htype0 htype7 hts1 hts2 hs ht hc
  have e1 := NetworkLayer.read_write_int32 t
    (NetworkLayer.write_int64 ts ++ (NetworkLayer.write_string s1 ++
      (NetworkLayer.write_string s2 ++ NetworkLayer.write_string s3)))
    (by omega) (by omega)
  have e2 := NetworkLayer.read_write_int64 ts
    (NetworkLayer.write_string s1 ++
      (NetworkLayer.write_string s2 ++ NetworkLayer.write_string s3)) hts1 hts2
  have e3 := NetworkLayer.read_write_string s1
    (NetworkLayer.write_string s2 ++ NetworkLayer.write_string s3) hs
  have e4 := NetworkLayer.read_write_string s2 (NetworkLayer.write_string s3) ht
  have e5 : NetworkLayer.read_string (NetworkLayer.write_string s3) = some (s3, []) := by
    simpa using NetworkLayer.read_write_string s3 [] hc
  simp only [NetworkLayer.Serialize, List.append_assoc]
  simp [NetworkLayer.Deserialize, e1, e2, e3, e4, e5]

/-- Witness for C2 at a concrete message. -/
theorem C2_codec_roundtrip_witness :
    NetworkLayer.Deserialize (NetworkLayer.Serialize
      { type := MessageType.PUBLIC_MESSAGE, timestamp := 42,
        sender_username := strBytes "alice", target_username := [],
        content := strBytes "hi" }) =
    some { type := MessageType.PUBLIC_MESSAGE, timestamp := 42,
           sender_username := strBytes "alice", target_username := [],
           content := strBytes "hi" } :=
  C2_codec_roundtrip _ (by decide) (by decide) (by decide) (by decide)
    (by decide) (by decide) (by decide)

/-! ## Claim C3: decode failure conditions -/

/-- C3 counterexample: the claim "no Message with an out-of-range type is
ever produced by the decoder" is false.  `Deserialize` performs no range
check on the decoded `int32` type: this 24-byte frame declares type `8`
(the enum's valid values are `0..7`, as the second conjunct records) and
decodes successfully to a `Message` with `type = 8` instead of failing. -/
theorem C3_type8_decodes_counterexample :
    NetworkLayer.Deserialize
      [0, 0, 0, 8, 0, 0, 0, 0, 0, 0, 0, 0, 0, 0, 0, 0, 0, 0, 0, 0, 0, 0, 0, 0] =
      some { type := 8, timestamp := 0, sender_username := [],
             target_username := [], content := [] } ∧
    ((8 : Int) < 0 ∨ 7 < (8 : Int)) := by
  constructor
  · decide
  · right; decide

/-- C3 amended: (a) `read_string` fails whenever the declared length is
negative or exceeds the bytes that remain; (b) `Deserialize` produces a
message only when every stage — type, timestamp and all three strings —
succeeded (so any truncated string makes the whole decode fail); (c) the
type value, however, is **not** range-checked: any `int32` on the wire,
out of the enum's range or not, comes back verbatim as the message type. -/
theorem C3_decode_failure_amended :
    (∀ data : List Nat, ∀ declared : Int, ∀ rest : List Nat,
      NetworkLayer.read_int32 data = some (declared, rest) →
      (declared < 0 ∨ (rest.length : Int) < declared) →
      NetworkLayer.read_string data = none) ∧
    (∀ data : List Nat, ∀ msg : Message,
      NetworkLayer.Deserialize data = some msg →
      ∃ r1 r2 r3 r4 r5,
        NetworkLayer.read_int32 data = some (msg.type, r1) ∧
        NetworkLayer.read_int64 r1 = some (msg.timestamp, r2) ∧
        NetworkLayer.read_string r2 = some (msg.sender_username, r3) ∧
        NetworkLayer.read_string r3 = some (msg.target_username, r4) ∧
        NetworkLayer.read_string r4 = some (msg.content, r5)) ∧
    (∀ t : Int, -(2 ^ 31) ≤ t → t < 2 ^ 31 →
      NetworkLayer.Deserialize
        (NetworkLayer.write_int32 t ++ NetworkLayer.write_int64 0 ++
          NetworkLayer.write_string [] ++ NetworkLayer.write_string [] ++
          NetworkLayer.write_string []) =
      some { type := t, timestamp := 0, sender_username := [],
             target_username := [], content := [] }) := by
  refine ⟨?_, ?_, ?_⟩
  · intro data declared rest h1 h2
    simp only [NetworkLayer.read_string, h1]
    rcases h2 with hneg | hshort
    · simp [hneg]
    · have : ¬ declared < 0 := by omega
      have hlt : ¬ declared.toNat ≤ rest.length := by omega
      simp [this, NetworkLayer.readBytes, hlt]
  · intro data msg h
    simp only [NetworkLayer.Deserialize] at h
    split at h
    · exact absurd h (by simp)
    next t r1 h1 =>
      split at h
      · exact absurd h (by simp)
      next ts r2 h2 =>
        split at h
        · exact absurd h (by simp)
        next s1 r3 h3 =>
          split at h
          · exact absurd h (by simp)
          next s2 r4 h4 =>
            split at h
            · exact absurd h (by simp)
            next s3 r5 h5 =>
              simp only [Option.some.injEq] at h
              subst h
              exact ⟨r1, r2, r3, r4, r5, h1, h2, h3, h4, h5⟩
  · intro t hlo hhi
    have e1 := NetworkLayer.read_write_int32 t
      (NetworkLayer.write_int64 0 ++ (NetworkLayer.write_string [] ++
        (NetworkLayer.write_string [] ++ NetworkLayer.write_string []))) hlo hhi
    have e2 := NetworkLayer.read_write_int64 0
      (NetworkLayer.write_string [] ++
        (NetworkLayer.write_string [] ++ NetworkLayer.write_string []))
      (by norm_num) (by norm_num)
    have e3 := NetworkLayer.read_write_string []
      (NetworkLayer.write_string [] ++ NetworkLayer.write_string []) (by norm_num)
    have e4 := NetworkLayer.read_write_string [] (NetworkLayer.write_string [])
      (by norm_num)
    have e5 : NetworkLayer.read_string (NetworkLayer.write_string []) =
        some (([] : List Nat), []) := by
      simpa using NetworkLayer.read_write_string [] [] (by norm_num)
    simp only [List.append_assoc]
    simp [NetworkLayer.Deserialize, e1, e2, e3, e4, e5]

/-- Witness for C3's amended theorem: a frame whose declared sender length
(5) exceeds the zero remaining bytes is rejected by `read_string`. -/
theorem C3_decode_failure_amended_witness :
    NetworkLayer.read_string [0, 0, 0, 5] = none :=
  C3_decode_failure_amended.1 [0, 0, 0, 5] 5 [] (by decide) (Or.inr (by decide))

/-! ## Claim C4: ReceiveMessage returns none on every failure -/

/-- C4: `ReceiveMessage` returns the `none` sentinel — never a partial
message, never an exception — (a) when the 4-byte length prefix cannot be
fully read, (b) when the declared frame length is non-positive, (c) when
fewer payload bytes than declared arrive (truncation mid-frame), and
(d) when decoding the payload fails. -/
theorem C4_receive_none_on_failure :
    (∀ stream : List Nat, stream.length < 4 →
      NetworkLayer.ReceiveMessage stream = none) ∧
    (∀ stream lenBytes rest,
      NetworkLayer.readBytes 4 stream = some (lenBytes, rest) →
      NetworkLayer.int32OfBytes lenBytes ≤ 0 →
      NetworkLayer.ReceiveMessage stream = none) ∧
    (∀ stream lenBytes rest,
      NetworkLayer.readBytes 4 stream = some (lenBytes, rest) →
      0 < NetworkLayer.int32OfBytes lenBytes →
      rest.length < (NetworkLayer.int32OfBytes lenBytes).toNat →
      NetworkLayer.ReceiveMessage stream = none) ∧
    (∀ stream lenBytes rest buf rest2,
      NetworkLayer.readBytes 4 stream = some (lenBytes, rest) →
      0 < NetworkLayer.int32OfBytes lenBytes →
      NetworkLayer.readBytes (NetworkLayer.int32OfBytes lenBytes).toNat rest =
        some (buf, rest2) →
      NetworkLayer.Deserialize buf = none →
      NetworkLayer.ReceiveMessage stream = none) := by
  refine ⟨?_, ?_, ?_, ?_⟩
  · intro stream h
    have : ¬ 4 ≤ stream.length := by omega
    simp [NetworkLayer.ReceiveMessage, NetworkLayer.readBytes, this]
  · intro stream lenBytes rest h1 h2
    simp [NetworkLayer.ReceiveMessage, h1, h2]
  · intro stream lenBytes rest h1 h2 h3
    have hns : ¬ NetworkLayer.int32OfBytes lenBytes ≤ 0 := by omega
    have hrb : ¬ (NetworkLayer.int32OfBytes lenBytes).toNat ≤ rest.length := by
      omega
    have hnone : NetworkLayer.readBytes
        (NetworkLayer.int32OfBytes lenBytes).toNat rest = none := by
      unfold NetworkLayer.readBytes
      rw [if_neg hrb]
    simp [NetworkLayer.ReceiveMessage, h1, hns, hnone]
  · intro stream lenBytes rest buf rest2 h1 h2 h3 h4
    have hns : ¬ NetworkLayer.int32OfBytes lenBytes ≤ 0 := by omega
    simp [NetworkLayer.ReceiveMessage, h1, hns, h3, h4]

/-- Witness for C4: the empty stream (EOF before any prefix byte). -/
theorem C4_receive_none_on_failure_witness :
    NetworkLayer.ReceiveMessage [] = none :=
  C4_receive_none_on_failure.1 [] (by decide)

/-! ## Registry lemmas -/

namespace UserManager

theorem GetSocket_eq_neg_one_of_unique (reg : Registry) (u : List Nat)
    (h : CheckUniqueness reg u = true) : GetSocket reg u = -1 := by
  have hnone : reg.find? (fun kv => kv.1 == u) = none := by
    rw [List.find?_eq_none]
    intro kv hkv
    have := List.all_eq_true.mp h kv hkv
    simpa using this
  unfold GetSocket
  rw [hnone]

theorem GetSocket_nonneg_of_taken (reg : Registry) (u : List Nat)
    (hwf : ∀ kv ∈ reg, (0 : Int) ≤ kv.2.2)
    (h : CheckUniqueness reg u = false) : 0 ≤ GetSocket reg u := by
  have hex : ∃ kv ∈ reg, (kv.1 == u) = true := by
    have hnall : ¬ (∀ kv ∈ reg, (!(kv.1 == u)) = true) := by
      intro hall
      have : CheckUniqueness reg u = true := List.all_eq_true.mpr hall
      rw [this] at h
      simp at h
    push_neg at hnall
    obtain ⟨kv, hkv, hp⟩ := hnall
    exact ⟨kv, hkv, by simpa using hp⟩
  have hsome : (reg.find? (fun kv => kv.1 == u)).isSome :=
    List.find?_isSome.mpr hex
  obtain ⟨kv, hkv⟩ := Option.isSome_iff_exists.mp hsome
  have hmem : kv ∈ reg := List.mem_of_find?_eq_some hkv
  unfold GetSocket
  rw [hkv]
  exact hwf kv hmem

end UserManager

/-! ## Claim C5: Command Processor verdicts -/

/-- C5: `Process` returns the verdict "DISCONNECT" exactly when the inbound
message is COMMAND_RESPONSE with content "BYE" (replying GOODBYE to the
requester); any message whose type is none of USER_LIST_REQUEST,
PRIVATE_MESSAGE, PUBLIC_MESSAGE and is not COMMAND_RESPONSE-"BYE" is
answered with an UNKNOWN_COMMAND reply and the verdict "CONTINUE". -/
theorem C5_process_verdicts (reg : UserManager.Registry) (now : Int)
    (msg : Message) (client_socket : Socket) :
    ((CommandProcessor.Process reg now msg client_socket).1 = "DISCONNECT" ↔
      msg.type = MessageType.COMMAND_RESPONSE ∧ msg.content = strBytes "BYE") ∧
    (msg.type = MessageType.COMMAND_RESPONSE → msg.content = strBytes "BYE" →
      CommandProcessor.Process reg now msg client_socket =
        ("DISCONNECT",
         [(client_socket, UserManager.MakeServerCommand now (strBytes "GOODBYE"))])) ∧
    (msg.type ≠ MessageType.USER_LIST_REQUEST →
      msg.type ≠ MessageType.PRIVATE_MESSAGE →
      msg.type ≠ MessageType.PUBLIC_MESSAGE →
      ¬ (msg.type = MessageType.COMMAND_RESPONSE ∧ msg.content = strBytes "BYE") →
      CommandProcessor.Process reg now msg client_socket =
        ("CONTINUE",
         [(client_socket,
           UserManager.MakeServerCommand now (strBytes "UNKNOWN_COMMAND"))])) := by
  unfold CommandProcessor.Process
  refine ⟨?_, ?_, ?_⟩ <;>
  · split_ifs with h1 h2 h3 h4 <;>
      simp_all [MessageType.USER_LIST_REQUEST, MessageType.PRIVATE_MESSAGE,
        MessageType.PUBLIC_MESSAGE, MessageType.COMMAND_RESPONSE]

/-- Witness for C5: a "BYE" COMMAND_RESPONSE yields DISCONNECT and a
GOODBYE reply to the requester. -/
theorem C5_process_verdicts_witness :
    CommandProcessor.Process [] 0
      { type := MessageType.COMMAND_RESPONSE, timestamp := 0,
        sender_username := strBytes "alice", target_username := [],
        content := strBytes "BYE" } 9 =
    ("DISCONNECT", [(9, UserManager.MakeServerCommand 0 (strBytes "GOODBYE"))]) :=
  (C5_process_verdicts [] 0
    { type := MessageType.COMMAND_RESPONSE, timestamp := 0,
      sender_username := strBytes "alice", target_username := [],
      content := strBytes "BYE" } 9).2.1 (by decide) (by decide)

/-! ## Claim C6: private message to a nonexistent target -/

/-- C6: when the target of a private message is not registered (and all
registered sockets are valid descriptors, i.e. non-negative, as every
socket stored by `Authenticate` comes from `accept`), `SendPrivate` sends
nothing to any socket other than the sender's freshly-looked-up one; if the
sender is registered, that socket receives exactly one COMMAND_RESPONSE
whose content is `"USER_NOT_FOUND:" ++ target`; if the sender is gone too,
nothing is sent at all. -/
theorem C6_private_target_not_found (reg : UserManager.Registry) (now : Int)
    (msg : Message)
    (hwf : ∀ kv ∈ reg, (0 : Int) ≤ kv.2.2)
    (htgt : UserManager.CheckUniqueness reg msg.target_username = true) :
    (UserManager.CheckUniqueness reg msg.sender_username = true →
      MessageRouter.SendPrivate reg now msg = []) ∧
    (UserManager.CheckUniqueness reg msg.sender_username = false →
      MessageRouter.SendPrivate reg now msg =
        [(UserManager.GetSocket reg msg.sender_username,
          { type := MessageType.COMMAND_RESPONSE, timestamp := now,
            sender_username := strBytes "Server", target_username := [],
            content := strBytes "USER_NOT_FOUND:" ++ msg.target_username })]) ∧
    (∀ p ∈ MessageRouter.SendPrivate reg now msg,
      p.1 = UserManager.GetSocket reg msg.sender_username) := by
  have htgtsock : UserManager.GetSocket reg msg.target_username = -1 :=
    UserManager.GetSocket_eq_neg_one_of_unique reg msg.target_username htgt
  refine ⟨?_, ?_, ?_⟩
  · intro hsender
    have hss : UserManager.GetSocket reg msg.sender_username = -1 :=
      UserManager.GetSocket_eq_neg_one_of_unique reg msg.sender_username hsender
    simp [MessageRouter.SendPrivate, htgtsock, hss]
  · intro hsender
    have hpos : 0 ≤ UserManager.GetSocket reg msg.sender_username :=
      UserManager.GetSocket_nonneg_of_taken reg msg.sender_username hwf hsender
    have hne : UserManager.GetSocket reg msg.sender_username ≠ -1 := by
      intro h
      rw [h] at hpos
      norm_num at hpos
    simp [MessageRouter.SendPrivate, htgtsock, hne]
  · intro p hp
    rcases hbool : UserManager.CheckUniqueness reg msg.sender_username with _ | _
    · have hpos : 0 ≤ UserManager.GetSocket reg msg.sender_username :=
        UserManager.GetSocket_nonneg_of_taken reg msg.sender_username hwf hbool
      have hne : UserManager.GetSocket reg msg.sender_username ≠ -1 := by
        intro h
        rw [h] at hpos
        norm_num at hpos
      simp [MessageRouter.SendPrivate, htgtsock, hne] at hp
      subst hp
      rfl
    · have hss : UserManager.GetSocket reg msg.sender_username = -1 :=
        UserManager.GetSocket_eq_neg_one_of_unique reg msg.sender_username hbool
      simp [MessageRouter.SendPrivate, htgtsock, hss] at hp

/-- Witness for C6: "alice" (socket 5) messages absent "carol" and gets the
USER_NOT_FOUND notification on socket 5; nobody else gets anything. -/
theorem C6_private_target_not_found_witness :
    MessageRouter.SendPrivate
      [(strBytes "alice",
        ({ id := 5, username := strBytes "alice", connected := true,
           joined_at := 0 }, (5 : Socket)))] 0
      { type := MessageType.PRIVATE_MESSAGE, timestamp := 0,
        sender_username := strBytes "alice",
        target_username := strBytes "carol", content := strBytes "hello" } =
    [(UserManager.GetSocket
        [(strBytes "alice",
          ({ id := 5, username := strBytes "alice", connected := true,
             joined_at := 0 }, (5 : Socket)))] (strBytes "alice"),
      { type := MessageType.COMMAND_RESPONSE, timestamp := 0,
        sender_username := strBytes "Server", target_username := [],
        content := strBytes "USER_NOT_FOUND:" ++ strBytes "carol" })] :=
  (C6_private_target_not_found
    [(strBytes "alice",
      ({ id := 5, username := strBytes "alice", connected := true,
         joined_at := 0 }, (5 : Socket)))] 0
    { type := MessageType.PRIVATE_MESSAGE, timestamp := 0,
      sender_username := strBytes "alice",
      target_username := strBytes "carol", content := strBytes "hello" }
    (by decide) (by decide)).2.1 (by decide)

/-! ## Claim C8: broadcast completeness -/

theorem filter_pair_length_eq (l : List Socket) (msg : Message) (s : Socket) :
    ((l.map (fun x => (x, msg))).filter (fun p => p.1 == s)).length =
      (l.filter (fun x => x == s)).length := by
  induction l with
  | nil => rfl
  | cons a t ih => by_cases h : a = s <;> simp [h, ih]

theorem filter_length_one_of_nodup (l : List Socket) (s : Socket)
    (hnd : l.Nodup) (hmem : s ∈ l) :
    (l.filter (fun x => x == s)).length = 1 := by
  induction l with
  | nil => simp at hmem
  | cons a t ih =>
    rcases List.mem_cons.mp hmem with h | h
    · subst h
      have hnotin : s ∉ t := (List.nodup_cons.mp hnd).1
      have hfe : t.filter (fun x => x == s) = [] := by
        rw [List.filter_eq_nil_iff]
        intro x hx
        simp only [beq_iff_eq]
        intro he
        exact hnotin (he ▸ hx)
      simp [hfe]
    · have hne : a ≠ s := by
        rintro rfl
        exact (List.nodup_cons.mp hnd).1 h
      have := ih (List.nodup_cons.mp hnd).2 h
      simp [hne, this]

/-- C8: `BroadcastPublic m` delivers to exactly the connections of the
registry snapshot taken at call time: every socket in the snapshot has
exactly one send in the output (and that send carries `m`), and every
send goes to a snapshot socket with payload `m` — nobody is skipped,
nobody is hit twice.  The snapshot hypothesis (`Nodup`) says each
connection appears once in it, as when each registered user holds a
distinct descriptor. -/
theorem C8_broadcast_exactly_once (reg : UserManager.Registry) (msg : Message)
    (hnd : (MessageRouter.CollectAllSockets reg).Nodup) :
    (∀ s ∈ MessageRouter.CollectAllSockets reg,
      ((MessageRouter.BroadcastPublic reg msg).filter
          (fun p => p.1 == s)).length = 1 ∧
      (s, msg) ∈ MessageRouter.BroadcastPublic reg msg) ∧
    (∀ p ∈ MessageRouter.BroadcastPublic reg msg,
      p.1 ∈ MessageRouter.CollectAllSockets reg ∧ p.2 = msg) := by
  constructor
  · intro s hs
    constructor
    · unfold MessageRouter.BroadcastPublic
      rw [filter_pair_length_eq]
      exact filter_length_one_of_nodup _ _ hnd hs
    · unfold MessageRouter.BroadcastPublic
      exact List.mem_map.mpr ⟨s, hs, rfl⟩
  · intro p hp
    unfold MessageRouter.BroadcastPublic at hp
    obtain ⟨x, hx, rfl⟩ := List.mem_map.mp hp
    exact ⟨hx, rfl⟩

/-- Witness for C8: with "alice" on socket 5 and "bob" on socket 6,
socket 5 receives the broadcast exactly once. -/
theorem C8_broadcast_exactly_once_witness :
    ((MessageRouter.BroadcastPublic
        [(strBytes "alice",
          ({ id := 5, username := strBytes "alice", connected := true,
             joined_at := 0 }, (5 : Socket))),
         (strBytes "bob",
          ({ id := 6, username := strBytes "bob", connected := true,
             joined_at := 0 }, (6 : Socket)))]
        { type := MessageType.PUBLIC_MESSAGE, timestamp := 1,
          sender_username := strBytes "alice", target_username := [],
          content := strBytes "hi" }).filter
        (fun p => p.1 == (5 : Socket))).length = 1 ∧
    ((5 : Socket),
      ({ type := MessageType.PUBLIC_MESSAGE, timestamp := 1,
         sender_username := strBytes "alice", target_username := [],
         content := strBytes "hi" } : Message)) ∈
      MessageRouter.BroadcastPublic
        [(strBytes "alice",
          ({ id := 5, username := strBytes "alice", connected := true,
             joined_at := 0 }, (5 : Socket))),
         (strBytes "bob",
          ({ id := 6, username := strBytes "bob", connected := true,
             joined_at := 0 }, (6 : Socket)))]
        { type := MessageType.PUBLIC_MESSAGE, timestamp := 1,
          sender_username := strBytes "alice", target_username := [],
          content := strBytes "hi" } :=
  (C8_broadcast_exactly_once _ _ (by decide)).1 5 (by decide)

/-! ## Claim C9: active-loop enrichment of inbound messages -/

/-- C9: the enrichment `ServeClient`'s active loop applies to each received
message before `CommandProcessor::Process` sees it — via `StampIncoming`,
which is exactly what `ActiveLoop` feeds to `Process`: the sender is always
overwritten with the session's username; the timestamp is replaced with the
current time exactly when it is `0` (a nonzero client timestamp survives
unchanged); type, target and content are untouched. -/
theorem C9_stamp_incoming (username : List Nat) (now : Int) (m : Message) :
    (ClientHandler.StampIncoming username now m).sender_username = username ∧
    (m.timestamp = 0 →
      (ClientHandler.StampIncoming username now m).timestamp = now) ∧
    (m.timestamp ≠ 0 →
      (ClientHandler.StampIncoming username now m).timestamp = m.timestamp) ∧
    (ClientHandler.StampIncoming username now m).type = m.type ∧
    (ClientHandler.StampIncoming username now m).target_username =
      m.target_username ∧
    (ClientHandler.StampIncoming username now m).content = m.content := by
  unfold ClientHandler.StampIncoming
  refine ⟨rfl, ?_, ?_, rfl, rfl, rfl⟩
  · intro h
    simp [h]
  · intro h
    simp [h]

/-- Witness for C9: a zero timestamp is replaced by the current time. -/
theorem C9_stamp_incoming_witness :
    (ClientHandler.StampIncoming (strBytes "alice") 99
      { type := MessageType.PUBLIC_MESSAGE, timestamp := 0,
        sender_username := [], target_username := [],
        content := strBytes "hi" }).timestamp = 99 :=
  (C9_stamp_incoming (strBytes "alice") 99
    { type := MessageType.PUBLIC_MESSAGE, timestamp := 0,
      sender_username := [], target_username := [],
      content := strBytes "hi" }).2.1 rfl

/-! ## Claim C10: '@'-line without a space is silently dropped -/

theorem findIdx?_none_of_not_mem (line : List Nat) (b : Nat) (h : b ∉ line) :
    line.findIdx? (fun x => x == b) = none := by
  induction line with
  | nil => rfl
  | cons a t ih =>
    have hne : (a == b) = false := by
      simp only [beq_eq_false_iff_ne, ne_eq]
      rintro rfl
      exact h (List.mem_cons_self a t)
    have ht : t.findIdx? (fun x => x == b) = none := by
      apply ih
      intro hb
      exact h (List.mem_cons_of_mem a hb)
    simp [List.findIdx?_cons, hne, ht]

/-- C10: a client input line that starts with `'@'` but contains no space
makes `InputLoop` send nothing at all to the server — the line is dropped
silently (neither a private nor a public message), and the loop simply
continues. -/
theorem C10_at_line_without_space_dropped (now : Int) (line : List Nat)
    (h1 : line.head? = some (Char.toNat '@'))
    (h2 : Char.toNat ' ' ∉ line) :
    ClientCLI.ProcessInputLine now line = ([], true) := by
  have hne : line ≠ [] := by
    intro h
    rw [h] at h1
    exact absurd h1 (by decide)
  have hbye : line ≠ strBytes "/bye" := by
    intro h
    rw [h] at h1
    exact absurd h1 (by decide)
  have hlist : line ≠ strBytes "/list" := by
    intro h
    rw [h] at h1
    exact absurd h1 (by decide)
  unfold ClientCLI.ProcessInputLine
  rw [if_neg hne, if_neg hbye, if_neg hlist, if_pos h1,
    findIdx?_none_of_not_mem line _ h2]

/-- Witness for C10: the line "@carol" sends nothing. -/
theorem C10_at_line_without_space_dropped_witness :
    ClientCLI.ProcessInputLine 0 (strBytes "@carol") = ([], true) :=
  C10_at_line_without_space_dropped 0 (strBytes "@carol") (by decide) (by decide)

/-! ## Claim C7: three failed username attempts -/

/-- A send whose message is the "ENTER_USERNAME" prompt — one username
attempt of `Authenticate` begins with exactly one of these. -/
def isPromptSend (p : Socket × Message) : Bool :=
  p.2.content == strBytes "ENTER_USERNAME"

theorem auth_prompts_le (now : Int) (client_socket : Socket) :
    ∀ fuel : Nat, ∀ reg : UserManager.Registry, ∀ replies : List (Option Message),
      (((UserManager.AuthenticateGo reg now client_socket replies fuel).2.2.1).filter
        isPromptSend).length ≤ fuel := by
  have hF : isPromptSend
      (client_socket, UserManager.MakeServerCommand now (strBytes "AUTH_FAILED")) = false := by
    simp only [isPromptSend, UserManager.MakeServerCommand]
    decide
  have hT : isPromptSend
      (client_socket, UserManager.MakeServerCommand now (strBytes "USERNAME_TAKEN")) = false := by
    simp only [isPromptSend, UserManager.MakeServerCommand]
    decide
  have hA : isPromptSend
      (client_socket, UserManager.MakeServerCommand now (strBytes "USERNAME_ACCEPTED")) = false := by
    simp only [isPromptSend, UserManager.MakeServerCommand]
    decide
  have hP : isPromptSend
      (client_socket, UserManager.MakeServerCommand now (strBytes "ENTER_USERNAME")) = true := by
    simp only [isPromptSend, UserManager.MakeServerCommand]
    decide
  intro fuel
  induction fuel with
  | zero =>
    intro reg replies
    simp [UserManager.AuthenticateGo, List.filter, hF]
  | succ k ih =>
    intro reg replies
    cases replies with
    | nil => simp [UserManager.AuthenticateGo, List.filter, hP]
    | cons head rest =>
      cases head with
      | none => simp [UserManager.AuthenticateGo, List.filter, hP]
      | some reply =>
        by_cases hu : UserManager.CheckUniqueness reg reply.content = true
        · simp [UserManager.AuthenticateGo, hu, List.filter, hP, hA]
        · have hb : UserManager.CheckUniqueness reg reply.content = false := by
            simpa using hu
          have := ih reg rest
          simp only [UserManager.AuthenticateGo, hb, Bool.false_eq_true, if_false,
            List.filter_cons, hP, hT]
          simp only [if_true, if_false, List.length_cons]
          omega

/-- C7: when all three candidate usernames are already taken,
`Authenticate` makes exactly 3 attempts — each failure is answered with
USERNAME_TAKEN — then sends AUTH_FAILED and returns no user with the
registry unchanged; `ServeClient` then closes the connection without any
join broadcast, without entering the active loop and without touching the
registry.  The last conjunct bounds every run: no reply stream can make
`Authenticate` issue more than 3 username prompts. -/
theorem C7_auth_exhausted (reg : UserManager.Registry) (now : Int)
    (client_socket : Socket) (m1 m2 m3 : Message)
    (rest : List (Option Message))
    (h1 : UserManager.CheckUniqueness reg m1.content = false)
    (h2 : UserManager.CheckUniqueness reg m2.content = false)
    (h3 : UserManager.CheckUniqueness reg m3.content = false) :
    UserManager.Authenticate reg now client_socket
        (some m1 :: some m2 :: some m3 :: rest) =
      (none, reg,
       [(client_socket, UserManager.MakeServerCommand now (strBytes "ENTER_USERNAME")),
        (client_socket, UserManager.MakeServerCommand now (strBytes "USERNAME_TAKEN")),
        (client_socket, UserManager.MakeServerCommand now (strBytes "ENTER_USERNAME")),
        (client_socket, UserManager.MakeServerCommand now (strBytes "USERNAME_TAKEN")),
        (client_socket, UserManager.MakeServerCommand now (strBytes "ENTER_USERNAME")),
        (client_socket, UserManager.MakeServerCommand now (strBytes "USERNAME_TAKEN")),
        (client_socket, UserManager.MakeServerCommand now (strBytes "AUTH_FAILED"))],
       rest) ∧
    ClientHandler.ServeClient reg now client_socket
        (some m1 :: some m2 :: some m3 :: rest) =
      (reg,
       [ClientHandler.Event.send client_socket
          (UserManager.MakeServerCommand now (strBytes "ENTER_USERNAME")),
        ClientHandler.Event.send client_socket
          (UserManager.MakeServerCommand now (strBytes "USERNAME_TAKEN")),
        ClientHandler.Event.send client_socket
          (UserManager.MakeServerCommand now (strBytes "ENTER_USERNAME")),
        ClientHandler.Event.send client_socket
          (UserManager.MakeServerCommand now (strBytes "USERNAME_TAKEN")),
        ClientHandler.Event.send client_socket
          (UserManager.MakeServerCommand now (strBytes "ENTER_USERNAME")),
        ClientHandler.Event.send client_socket
          (UserManager.MakeServerCommand now (strBytes "USERNAME_TAKEN")),
        ClientHandler.Event.send client_socket
          (UserManager.MakeServerCommand now (strBytes "AUTH_FAILED")),
        ClientHandler.Event.close client_socket]) ∧
    (∀ replies : List (Option Message),
      (((UserManager.Authenticate reg now client_socket replies).2.2.1).filter
        isPromptSend).length ≤ 3) := by
  have hauth : UserManager.Authenticate reg now client_socket
      (some m1 :: some m2 :: some m3 :: rest) =
    (none, reg,
     [(client_socket, UserManager.MakeServerCommand now (strBytes "ENTER_USERNAME")),
      (client_socket, UserManager.MakeServerCommand now (strBytes "USERNAME_TAKEN")),
      (client_socket, UserManager.MakeServerCommand now (strBytes "ENTER_USERNAME")),
      (client_socket, UserManager.MakeServerCommand now (strBytes "USERNAME_TAKEN")),
      (client_socket, UserManager.MakeServerCommand now (strBytes "ENTER_USERNAME")),
      (client_socket, UserManager.MakeServerCommand now (strBytes "USERNAME_TAKEN")),
      (client_socket, UserManager.MakeServerCommand now (strBytes "AUTH_FAILED"))],
     rest) := by
    simp [UserManager.Authenticate, UserManager.AuthenticateGo, h1, h2, h3]
  refine ⟨hauth, ?_, ?_⟩
  · simp [ClientHandler.ServeClient, hauth]
  · intro replies
    exact auth_prompts_le now client_socket 3 reg replies

/-- Witness for C7: registry holding "bob", three attempts all offering
"bob". -/
theorem C7_auth_exhausted_witness :
    UserManager.Authenticate
        [(strBytes "bob",
          ({ id := 6, username := strBytes "bob", connected := true,
             joined_at := 0 }, (6 : Socket)))] 0 8
        [some (UserManager.MakeServerCommand 0 (strBytes "bob")),
         some (UserManager.MakeServerCommand 0 (strBytes "bob")),
         some (UserManager.MakeServerCommand 0 (strBytes "bob"))] =
      (none,
       [(strBytes "bob",
         ({ id := 6, username := strBytes "bob", connected := true,
            joined_at := 0 }, (6 : Socket)))],
       [((8 : Socket), UserManager.MakeServerCommand 0 (strBytes "ENTER_USERNAME")),
        ((8 : Socket), UserManager.MakeServerCommand 0 (strBytes "USERNAME_TAKEN")),
        ((8 : Socket), UserManager.MakeServerCommand 0 (strBytes "ENTER_USERNAME")),
        ((8 : Socket), UserManager.MakeServerCommand 0 (strBytes "USERNAME_TAKEN")),
        ((8 : Socket), UserManager.MakeServerCommand 0 (strBytes "ENTER_USERNAME")),
        ((8 : Socket), UserManager.MakeServerCommand 0 (strBytes "USERNAME_TAKEN")),
        ((8 : Socket), UserManager.MakeServerCommand 0 (strBytes "AUTH_FAILED"))],
       []) :=
  (C7_auth_exhausted
    [(strBytes "bob",
      ({ id := 6, username := strBytes "bob", connected := true,
         joined_at := 0 }, (6 : Socket)))] 0 8
    (UserManager.MakeServerCommand 0 (strBytes "bob"))
    (UserManager.MakeServerCommand 0 (strBytes "bob"))
    (UserManager.MakeServerCommand 0 (strBytes "bob")) []
    (by decide) (by decide) (by decide)).1

/-! ## Claim C1: the check-then-insert race in Authenticate -/

/-- C1: the claim "for every pair of concurrent authentication attempts
offering the same candidate username, at most one succeeds, for any
interleaving of the CheckUniqueness and AddUser calls made by
Authenticate" is FALSE on this code: `g_mutex` is taken separately inside
`CheckUniqueness` and `AddUser`, so under the interleaving
Check₁; Check₂; Add₁; Add₂ (schedule `[false, true, false, true]`) both
attempts for "alice" pass the uniqueness check and both finish accepted
(both would be sent USERNAME_ACCEPTED).  The map itself still holds a
single entry for "alice" — the second `AddUser` silently overwrites the
first, leaving session 1 believing it is registered while the registry
points at socket 4. -/
theorem C1_concurrent_auth_both_accept :
    (AuthRace.runRace 0
      { reg := [],
        t1 := { uname := strBytes "alice", sock := 3,
                phase := AuthRace.Phase.toCheck },
        t2 := { uname := strBytes "alice", sock := 4,
                phase := AuthRace.Phase.toCheck } }
      [false, true, false, true]).t1.accepted = true ∧
    (AuthRace.runRace 0
      { reg := [],
        t1 := { uname := strBytes "alice", sock := 3,
                phase := AuthRace.Phase.toCheck },
        t2 := { uname := strBytes "alice", sock := 4,
                phase := AuthRace.Phase.toCheck } }
      [false, true, false, true]).t2.accepted = true ∧
    (AuthRace.runRace 0
      { reg := [],
        t1 := { uname := strBytes "alice", sock := 3,
                phase := AuthRace.Phase.toCheck },
        t2 := { uname := strBytes "alice", sock := 4,
                phase := AuthRace.Phase.toCheck } }
      [false, true, false, true]).reg =
      [(strBytes "alice",
        ({ id := 4, username := strBytes "alice", connected := true,
           joined_at := 0 }, (4 : Socket)))] := by
  decide
